import Mathlib

/-!
Verification of the load-shift-optimizer core against its specification.

The request/response models (`src/loadshift/models.py`) and the API boundary
(`src/loadshift/api.py`) are embedded directly from the source.  The
transfer-matrix optimizer (`VirtualStorage.optimize_demand`, imported by
`api.py` from `loadshift.virtual_storage`) and the rolling-horizon scheduler
(`moving_horizon`, imported from `loadshift.moving_horizon`) are not among the
available sources; they are modelled from the specification (sections 4.1 and
4.3).  Python floats are embedded as rationals.
-/

namespace LoadShift

/-- Modelled from the spec: the input of one call to the transfer-matrix
optimizer `VirtualStorage.optimize_demand` (the module
`loadshift/virtual_storage.py` is missing from the sources); spec section 4.1.
Field names follow the constructor arguments visible in `api.py`. -/
structure SolveInput where
  price : List ℚ
  demand : List ℚ
  max_demand_advance : ℕ
  max_demand_delay : ℕ
  max_hourly_purchase : ℚ
  max_rate : ℚ
  enforce_charge_direction : Bool
  n_control_hours : Option ℕ
deriving DecidableEq

/-- Length of the solved horizon (number of time slots). -/
def horizon (inp : SolveInput) : ℕ := inp.demand.length

/-- Modelled from the spec: spillover accounting is active exactly when a
bounded control horizon was supplied, i.e. `n_control_hours` is set and
strictly smaller than the series length (spec sections 4.1 and 6). -/
def spillActive (inp : SolveInput) : Bool :=
  match inp.n_control_hours with
  | some k => decide (k < horizon inp)
  | none => false

/-- Modelled from the spec: one point of the optimization model of spec 4.1 —
a transfer matrix `T i j` (demand moved from slot `i` to slot `j`) together
with the two auxiliary spillover vectors.  Entries outside the horizon are
ignored by every definition below. -/
structure Candidate where
  T : ℕ → ℕ → ℚ
  remove_spillover : ℕ → ℚ
  add_spillover : ℕ → ℚ

/-- Sum of `f 0 + f 1 + ... + f (n-1)`, in a form the kernel evaluates. -/
def sumTo : ℕ → (ℕ → ℚ) → ℚ
  | 0, _ => 0
  | n + 1, f => sumTo n f + f n

/-- Total transferred energy arriving at slot `i`. -/
def inflow (inp : SolveInput) (c : Candidate) (i : ℕ) : ℚ :=
  sumTo (horizon inp) (fun j => c.T j i)

/-- Total transferred energy leaving slot `i`. -/
def outflow (inp : SolveInput) (c : Candidate) (i : ℕ) : ℚ :=
  sumTo (horizon inp) (fun j => c.T i j)

/-- Modelled from the spec: consumption after shifting,
`optimal_demand[i] = demand[i] + inflow - outflow + add_spillover - remove_spillover`
(spec section 4.1, with the spillover vectors entering with the signs their
descriptions dictate). -/
def optimalDemand (inp : SolveInput) (c : Candidate) (i : ℕ) : ℚ :=
  inp.demand.getD i 0 + inflow inp c i - outflow inp c i
    + c.add_spillover i - c.remove_spillover i

/-- Modelled from the spec: the feasibility constraints of the model of spec
section 4.1.  The diagonal is forced to zero (the spec treats `T[i,i]` as
implicit unmoved demand, not a decision variable); transfers exist only inside
the advance/delay window; every transfer is within `[0, max_rate]`; shifted
consumption lies in `[0, max_hourly_purchase]`; spillover is non-negative,
restricted to boundary-adjacent slots, and only available when a bounded
control horizon makes it active; the optional charge-direction rule forbids a
slot from simultaneously gaining and losing energy. -/
def Feasible (inp : SolveInput) (c : Candidate) : Prop :=
  (∀ i < horizon inp, ∀ j < horizon inp,
      c.T i j ≠ 0 →
        i ≠ j ∧ i ≤ j + inp.max_demand_advance ∧ j ≤ i + inp.max_demand_delay) ∧
  (∀ i < horizon inp, ∀ j < horizon inp,
      0 ≤ c.T i j ∧ c.T i j ≤ inp.max_rate) ∧
  (∀ i < horizon inp,
      0 ≤ optimalDemand inp c i ∧ optimalDemand inp c i ≤ inp.max_hourly_purchase) ∧
  (∀ i < horizon inp,
      0 ≤ c.remove_spillover i ∧ 0 ≤ c.add_spillover i) ∧
  (∀ i < horizon inp, c.remove_spillover i ≠ 0 →
      spillActive inp = true ∧ horizon inp ≤ i + inp.max_demand_delay) ∧
  (∀ i < horizon inp, c.add_spillover i ≠ 0 →
      spillActive inp = true ∧ i < inp.max_demand_delay) ∧
  (inp.enforce_charge_direction = true → ∀ i < horizon inp,
      inflow inp c i + c.add_spillover i = 0 ∨
        outflow inp c i + c.remove_spillover i = 0)

/-- Objective of the model: total cost of the shifted consumption. -/
def cost (inp : SolveInput) (c : Candidate) : ℚ :=
  sumTo (horizon inp) (fun i => inp.price.getD i 0 * optimalDemand inp c i)

/-- Modelled from the spec: the result contract of the solve — a feasible
point of minimal cost (spec section 4.1; the solver backend internals are
explicitly out of the spec's scope, only this contract is prescribed). -/
def IsOptimal (inp : SolveInput) (c : Candidate) : Prop :=
  Feasible inp c ∧ ∀ c2, Feasible inp c2 → cost inp c ≤ cost inp c2

/-- The engine's returned quantities, as read off by `api.py`: the result
dictionary carries `optimal_demand`, `optimal_shift` and (optionally) the two
spillover vectors — and no cost fields. -/
structure EngineResult where
  optimal_demand : List ℚ
  optimal_shift : List ℚ
  remove_spillover : Option (List ℚ)
  add_spillover : Option (List ℚ)
deriving DecidableEq

/-- Modelled from the spec: extraction of the returned quantities from a model
point.  The spillover vectors are present exactly when spillover accounting is
active (spec section 6: present only when a bounded control horizon was
supplied). -/
def resultOf (inp : SolveInput) (c : Candidate) : EngineResult :=
  { optimal_demand := (List.range (horizon inp)).map (optimalDemand inp c)
    optimal_shift := (List.range (horizon inp)).map
      (fun i => optimalDemand inp c i - inp.demand.getD i 0)
    remove_spillover :=
      if spillActive inp then
        some ((List.range (horizon inp)).map c.remove_spillover)
      else none
    add_spillover :=
      if spillActive inp then
        some ((List.range (horizon inp)).map c.add_spillover)
      else none }

/-- A returned engine result is optimal when it is the extraction of an
optimal model point. -/
def ResultOptimal (inp : SolveInput) (r : EngineResult) : Prop :=
  ∃ c, IsOptimal inp c ∧ r = resultOf inp c

/-- `models.OptimizationRequest`: the raw field values of a request to
`/api/v1/optimize`, before pydantic validation. -/
structure OptimizationRequest where
  price : List ℚ
  demand : List ℚ
  max_demand_advance : ℤ
  max_demand_delay : ℤ
  max_hourly_purchase : ℚ
  max_rate : ℚ
  enforce_charge_direction : Bool
  solver : String
  n_control_hours : Option ℤ
deriving DecidableEq

/-- The pydantic validation of `models.OptimizationRequest`: both arrays
non-empty (`min_length=1` and `validate_arrays_not_empty`),
`max_demand_advance ≥ 0`, `max_demand_delay ≥ 0`, `max_hourly_purchase > 0`,
`max_rate > 0`, `n_control_hours ≥ 1` when given, and
`len(demand) == len(price)` (`validate_demand_length`). -/
def validOptimizationRequest (r : OptimizationRequest) : Bool :=
  decide (1 ≤ r.price.length) && decide (1 ≤ r.demand.length) &&
  decide (0 ≤ r.max_demand_advance) && decide (0 ≤ r.max_demand_delay) &&
  decide (0 < r.max_hourly_purchase) && decide (0 < r.max_rate) &&
  (match r.n_control_hours with
   | some k => decide (1 ≤ k)
   | none => true) &&
  decide (r.demand.length = r.price.length)

/-- Elementwise product sum: embeds `np.sum(price * demand)` on equal-length
arrays. -/
def dotList (p d : List ℚ) : ℚ := (List.zipWith (fun a b => a * b) p d).sum

/-- Construction of the engine input from a validated request (`api.py`,
creation of the `VirtualStorage` optimizer and the `optimize_demand` call). -/
def toSolveInput (r : OptimizationRequest) : SolveInput :=
  { price := r.price
    demand := r.demand
    max_demand_advance := r.max_demand_advance.toNat
    max_demand_delay := r.max_demand_delay.toNat
    max_hourly_purchase := r.max_hourly_purchase
    max_rate := r.max_rate
    enforce_charge_direction := r.enforce_charge_direction
    n_control_hours := r.n_control_hours.map Int.toNat }

/-- `models.OptimizationResponse`. -/
structure OptimizationResponse where
  optimal_demand : List ℚ
  optimal_shift : List ℚ
  original_cost : ℚ
  optimized_cost : ℚ
  cost_savings : ℚ
  cost_savings_percent : ℚ
  remove_spillover : Option (List ℚ)
  add_spillover : Option (List ℚ)
deriving DecidableEq

/-- The error classes an endpoint reports: a 400/422-class validation failure
(`InvalidParameter`) or a 500-class failure. -/
inductive ApiError where
  | invalidParameter (detail : String)
  | internalError (detail : String)
deriving DecidableEq

/-- The `/api/v1/optimize` endpoint (`api.py`, `optimize_demand`),
parameterized over the engine `S`: validation happens before any engine call;
the cost fields are computed at the boundary from the request arrays and the
engine's returned `optimal_demand`; the percent savings guard returns `0.0`
unless the original cost is strictly positive; the spillover vectors are
copied into the response exactly when the engine result carries them. -/
def optimize_demand (S : SolveInput → EngineResult) (r : OptimizationRequest) :
    Except ApiError OptimizationResponse :=
  if validOptimizationRequest r then
    let result := S (toSolveInput r)
    let original_cost := dotList r.price r.demand
    let optimized_cost := dotList r.price result.optimal_demand
    let cost_savings := original_cost - optimized_cost
    let cost_savings_percent :=
      if 0 < original_cost then cost_savings / original_cost * 100 else 0
    .ok { optimal_demand := result.optimal_demand
          optimal_shift := result.optimal_shift
          original_cost := original_cost
          optimized_cost := optimized_cost
          cost_savings := cost_savings
          cost_savings_percent := cost_savings_percent
          remove_spillover := result.remove_spillover
          add_spillover := result.add_spillover }
  else
    .error (.invalidParameter "validation")

/-- `models.TimeSeriesData`: raw timestamps/values of one series. -/
structure TimeSeriesData where
  timestamps : List String
  values : List ℚ
deriving DecidableEq

/-- The pydantic validation of `models.TimeSeriesData`: both lists non-empty
and `len(values) == len(timestamps)` (`validate_values_length`); nothing else
is checked. -/
def validTimeSeriesData (t : TimeSeriesData) : Bool :=
  decide (1 ≤ t.timestamps.length) && decide (1 ≤ t.values.length) &&
  decide (t.values.length = t.timestamps.length)

/-- `models.LoadShiftConfig`. -/
structure LoadShiftConfig where
  max_demand_advance : ℤ
  max_demand_delay : ℤ
  max_hourly_purchase : ℚ
  max_rate : ℚ
  enforce_charge_direction : Bool
  solver : String
deriving DecidableEq

/-- Field bounds of `models.LoadShiftConfig`. -/
def validLoadShiftConfig (c : LoadShiftConfig) : Bool :=
  decide (0 ≤ c.max_demand_advance) && decide (0 ≤ c.max_demand_delay) &&
  decide (0 < c.max_hourly_purchase) && decide (0 < c.max_rate)

/-- `models.MovingHorizonRequest`. -/
structure MovingHorizonRequest where
  price_data : TimeSeriesData
  demand_data : TimeSeriesData
  daily_decision_hour : ℤ
  n_lookahead_hours : ℤ
  load_shift : LoadShiftConfig
deriving DecidableEq

/-- The pydantic validation of `models.MovingHorizonRequest`: each series is
internally consistent, `0 ≤ daily_decision_hour ≤ 23`,
`n_lookahead_hours ≥ 24`, and the embedded config bounds hold.  There is no
cross-series check. -/
def validMovingHorizonRequest (r : MovingHorizonRequest) : Bool :=
  validTimeSeriesData r.price_data && validTimeSeriesData r.demand_data &&
  decide (0 ≤ r.daily_decision_hour) && decide (r.daily_decision_hour ≤ 23) &&
  decide (24 ≤ r.n_lookahead_hours) && validLoadShiftConfig r.load_shift

/-- Solver-side failures of one window solve (spec sections 4.2 and 7). -/
inductive SolverError where
  | infeasible
  | solverTimeout
  | solverFailure (detail : String)
  | backendUnavailable (backend : String)
deriving DecidableEq

/-- Failure of a whole rolling-horizon run, naming the failing window's
start (spec sections 4.3 and 7). -/
structure ScheduleSolveFailed where
  window_start : ℕ
  error : SolverError
deriving DecidableEq

/-- Modelled from the spec: the working input of the rolling-horizon
scheduler (`moving_horizon` in `loadshift/moving_horizon.py`, missing from
the sources); spec section 4.3.  Samples are hourly and consecutive;
`start_hour` is the hour-of-day of the first sample (read off the timestamps
by `pd.to_datetime` at the boundary). -/
structure MovingHorizonInput where
  start_hour : ℕ
  price : List ℚ
  demand : List ℚ
  daily_decision_hour : ℕ
  n_lookahead_hours : ℕ
  max_demand_advance : ℕ
  max_demand_delay : ℕ
  max_hourly_purchase : ℚ
  max_rate : ℚ
  enforce_charge_direction : Bool
deriving DecidableEq

/-- Modelled from the spec: the index of the first decision point — the first
slot whose hour-of-day equals `daily_decision_hour`; decision points then
repeat every 24 hours (spec 4.3). -/
def firstDecision (mh : MovingHorizonInput) : ℕ :=
  (mh.daily_decision_hour + 24 - mh.start_hour % 24) % 24

/-- Length of the window carved out at decision point `p`: the lookahead,
clipped to the remaining data (spec 4.3). -/
def windowLen (mh : MovingHorizonInput) (p : ℕ) : ℕ :=
  min mh.n_lookahead_hours (mh.demand.length - p)

/-- Modelled from the spec: the engine input of the window solved at decision
point `p` — the price/demand slices spanning the clipped lookahead, with the
control horizon set to the number of hours until the next decision point,
which is always 24 (spec 4.3). -/
def windowInput (mh : MovingHorizonInput) (p : ℕ) : SolveInput :=
  { price := (mh.price.drop p).take (windowLen mh p)
    demand := (mh.demand.drop p).take (windowLen mh p)
    max_demand_advance := mh.max_demand_advance
    max_demand_delay := mh.max_demand_delay
    max_hourly_purchase := mh.max_hourly_purchase
    max_rate := mh.max_rate
    enforce_charge_direction := mh.enforce_charge_direction
    n_control_hours := some 24 }

/-- Number of slots committed from the window at `p`: the control-horizon
length, all of a shorter terminal window (spec 4.3). -/
def commitLen (mh : MovingHorizonInput) (p : ℕ) : ℕ :=
  min 24 (windowLen mh p)

/-- Modelled from the spec: the scheduler loop — at each decision point solve
the current window, commit the control-horizon long head of its
`optimal_demand`, advance 24 hours; the first failing window aborts the whole
run carrying its start (spec 4.3 and section 7).  `fuel` bounds the
recursion; any value at least `mh.demand.length` is enough. -/
def schedLoop (S : SolveInput → Except SolverError EngineResult)
    (mh : MovingHorizonInput) : ℕ → ℕ → Except ScheduleSolveFailed (List ℚ)
  | 0, _ => .ok []
  | fuel + 1, p =>
    if p < mh.demand.length then
      match S (windowInput mh p) with
      | .error e => .error { window_start := p, error := e }
      | .ok res =>
        match schedLoop S mh fuel (p + 24) with
        | .error f => .error f
        | .ok rest => .ok (res.optimal_demand.take (commitLen mh p) ++ rest)
    else .ok []

/-- Modelled from the spec: the rolling-horizon scheduler `moving_horizon`.
Slots before the first decision point precede every decision and are
committed unchanged, so that the committed output covers exactly the input
slots (the series-length invariant of spec section 3). -/
def moving_horizon (S : SolveInput → Except SolverError EngineResult)
    (mh : MovingHorizonInput) : Except ScheduleSolveFailed (List ℚ) :=
  (schedLoop S mh mh.demand.length (firstDecision mh)).map
    (fun rest => mh.demand.take (firstDecision mh) ++ rest)

/-- The decision points of a run: `firstDecision`, then every 24 slots,
while data remains. -/
def decisionIndices (mh : MovingHorizonInput) : List ℕ :=
  (List.range mh.demand.length).filter
    (fun p => decide (firstDecision mh ≤ p) &&
      decide ((p - firstDecision mh) % 24 = 0))

/-- A possible behaviour of the rolling-horizon design: some engine that
returns an optimal result for every window of the run drives the scheduler to
this committed output series. -/
def SchedRun (mh : MovingHorizonInput) (out : List ℚ) : Prop :=
  ∃ S, (∀ p ∈ decisionIndices mh, ∃ r, S (windowInput mh p) = Except.ok r ∧
          ResultOptimal (windowInput mh p) r) ∧
    moving_horizon S mh = Except.ok out

/-- `models.MovingHorizonResponse`. -/
structure MovingHorizonResponse where
  timestamps : List String
  original_demand : List ℚ
  optimal_demand : List ℚ
  shift : List ℚ
  price : List ℚ
  original_cost : ℚ
  optimized_cost : ℚ
  cost_savings : ℚ
  cost_savings_percent : ℚ
deriving DecidableEq

/-- Construction of the scheduler input from a validated request (`api.py`,
the `config` dictionary handed to `moving_horizon`). -/
def toMovingHorizonInput (start_hour : ℕ) (r : MovingHorizonRequest) :
    MovingHorizonInput :=
  { start_hour := start_hour
    price := r.price_data.values
    demand := r.demand_data.values
    daily_decision_hour := r.daily_decision_hour.toNat
    n_lookahead_hours := r.n_lookahead_hours.toNat
    max_demand_advance := r.load_shift.max_demand_advance.toNat
    max_demand_delay := r.load_shift.max_demand_delay.toNat
    max_hourly_purchase := r.load_shift.max_hourly_purchase
    max_rate := r.load_shift.max_rate
    enforce_charge_direction := r.load_shift.enforce_charge_direction }

/-- The `/api/v1/optimize/moving-horizon` endpoint (`api.py`,
`optimize_moving_horizon`), parameterized over the engine `S`: schema
validation happens before the run; the cost fields are computed at the
boundary from the input series and the committed demand series; the percent
savings guard returns `0.0` unless the original cost is strictly positive; a
scheduler failure surfaces as a 500-class error.  `start_hour` stands for the
hour-of-day `pd.to_datetime` reads off the first timestamp. -/
def optimize_moving_horizon (S : SolveInput → Except SolverError EngineResult)
    (start_hour : ℕ) (r : MovingHorizonRequest) :
    Except ApiError MovingHorizonResponse :=
  if validMovingHorizonRequest r then
    match moving_horizon S (toMovingHorizonInput start_hour r) with
    | .error f => .error (.internalError (toString f.window_start))
    | .ok out =>
      let original_cost := dotList r.price_data.values r.demand_data.values
      let optimized_cost := dotList r.price_data.values out
      let cost_savings := original_cost - optimized_cost
      let cost_savings_percent :=
        if 0 < original_cost then cost_savings / original_cost * 100 else 0
      .ok { timestamps := r.demand_data.timestamps
            original_demand := r.demand_data.values
            optimal_demand := out
            shift := List.zipWith (fun a b => a - b) out r.demand_data.values
            price := r.price_data.values
            original_cost := original_cost
            optimized_cost := optimized_cost
            cost_savings := cost_savings
            cost_savings_percent := cost_savings_percent }
  else
    .error (.invalidParameter "validation")

attribute [instance] Nat.decidableBallLT

set_option synthInstance.maxSize 4096 in
set_option synthInstance.maxHeartbeats 1000000 in
/-- Feasibility is a finite conjunction of decidable bounded conditions. -/
instance decidableFeasible (inp : SolveInput) (c : Candidate) :
    Decidable (Feasible inp c) := by
  unfold Feasible
  exact inferInstance

/-- The all-zero model point: no transfer, no spillover. -/
def zeroCandidate : Candidate :=
  { T := fun _ _ => 0
    remove_spillover := fun _ => 0
    add_spillover := fun _ => 0 }

/-- Bound check of an optional control horizon (at least one hour). -/
def ctrlOk : Option ℕ → Bool
  | some k => decide (1 ≤ k)
  | none => true

/-- The validity precondition of spec 4.1 on an engine input: equal-length
series with at least one slot and constraint fields within their bounds (the
window widths are non-negative by their `ℕ` type). -/
def ValidSolveInput (inp : SolveInput) : Prop :=
  inp.price.length = inp.demand.length ∧ 1 ≤ inp.demand.length ∧
  0 < inp.max_hourly_purchase ∧ 0 < inp.max_rate ∧
  ctrlOk inp.n_control_hours = true

instance decidableValidSolveInput (inp : SolveInput) :
    Decidable (ValidSolveInput inp) := by
  unfold ValidSolveInput
  exact inferInstance

/-- A bounded control horizon in a request: `n_control_hours` supplied and
smaller than the demand series length. -/
def spillBounded (r : OptimizationRequest) : Bool :=
  match r.n_control_hours with
  | some k => decide (k.toNat < r.demand.length)
  | none => false

/-- A valid engine input whose original demand exceeds the hourly purchase
cap at slot 0, so that doing nothing is infeasible. -/
def c1badInput : SolveInput :=
  { price := [1, 100]
    demand := [30, 0]
    max_demand_advance := 0
    max_demand_delay := 1
    max_hourly_purchase := 20
    max_rate := 10
    enforce_charge_direction := false
    n_control_hours := none }

/-- The unique feasible point of `c1badInput`: the cap forces 10 units from
slot 0 to the expensive slot 1. -/
def c1badCandidate : Candidate :=
  { T := fun i j => if i = 0 ∧ j = 1 then 10 else 0
    remove_spillover := fun _ => 0
    add_spillover := fun _ => 0 }

/-- A one-slot valid engine input on which every feasible point costs the
same, so the do-nothing point is optimal. -/
def c1okInput : SolveInput :=
  { price := [2]
    demand := [1]
    max_demand_advance := 0
    max_demand_delay := 0
    max_hourly_purchase := 5
    max_rate := 1
    enforce_charge_direction := false
    n_control_hours := none }

/-- A request with mismatched array lengths (the shape of
`test_basic_optimization_mismatched_lengths`). -/
def c4badRequest : OptimizationRequest :=
  { price := [30, 80, 20]
    demand := [10, 15]
    max_demand_advance := 2
    max_demand_delay := 3
    max_hourly_purchase := 20
    max_rate := 10
    enforce_charge_direction := false
    solver := "auto"
    n_control_hours := none }

/-- An engine stub used where a statement quantifies over arbitrary engines. -/
def stubEngine : SolveInput → EngineResult :=
  fun _ => { optimal_demand := []
             optimal_shift := []
             remove_spillover := none
             add_spillover := none }

/-- A valid request carrying a bounded control horizon (one hour out of
two). -/
def c6Request : OptimizationRequest :=
  { price := [1, 1]
    demand := [0, 0]
    max_demand_advance := 0
    max_demand_delay := 0
    max_hourly_purchase := 1
    max_rate := 1
    enforce_charge_direction := false
    solver := "auto"
    n_control_hours := some 1 }

/-- An engine answering `c6Request` with the extraction of the all-zero
model point. -/
def c6Engine : SolveInput → EngineResult :=
  fun _ => resultOf (toSolveInput c6Request) zeroCandidate

/-- A minimal valid single-horizon request whose original cost is zero. -/
def zeroPriceRequest : OptimizationRequest :=
  { price := [0]
    demand := [1]
    max_demand_advance := 0
    max_demand_delay := 0
    max_hourly_purchase := 2
    max_rate := 1
    enforce_charge_direction := false
    solver := "auto"
    n_control_hours := none }

/-- The response `optimize_demand` produces for `zeroPriceRequest` driven by
`stubEngine`. -/
def zeroPriceResponse : OptimizationResponse :=
  { optimal_demand := []
    optimal_shift := []
    original_cost := 0
    optimized_cost := 0
    cost_savings := 0
    cost_savings_percent := 0
    remove_spillover := none
    add_spillover := none }

/-- A minimal valid moving-horizon request (one slot, zero price). -/
def mhSmallRequest : MovingHorizonRequest :=
  { price_data := { timestamps := ["t0"], values := [0] }
    demand_data := { timestamps := ["t0"], values := [1] }
    daily_decision_hour := 0
    n_lookahead_hours := 24
    load_shift := { max_demand_advance := 0
                    max_demand_delay := 0
                    max_hourly_purchase := 2
                    max_rate := 1
                    enforce_charge_direction := false
                    solver := "auto" } }

/-- A scheduler engine returning the window demand unchanged. -/
def identityEngine : SolveInput → Except SolverError EngineResult :=
  fun w => Except.ok { optimal_demand := w.demand
                       optimal_shift := List.replicate w.demand.length 0
                       remove_spillover := none
                       add_spillover := none }

/-- The response `optimize_moving_horizon` produces for `mhSmallRequest`
driven by `identityEngine` from start hour 0. -/
def mhSmallResponse : MovingHorizonResponse :=
  { timestamps := ["t0"]
    original_demand := [1]
    optimal_demand := [1]
    shift := [0]
    price := [0]
    original_cost := 0
    optimized_cost := 0
    cost_savings := 0
    cost_savings_percent := 0 }

/-- The response `optimize_demand` produces for `c6Request` driven by
`c6Engine`. -/
def c6Response : OptimizationResponse :=
  { optimal_demand := [0, 0]
    optimal_shift := [0, 0]
    original_cost := 0
    optimized_cost := 0
    cost_savings := 0
    cost_savings_percent := 0
    remove_spillover := some [0, 0]
    add_spillover := some [0, 0] }

/-- A moving-horizon request whose two series are individually consistent
but mutually mismatched in length and timestamps. -/
def c10mismatched : MovingHorizonRequest :=
  { price_data := { timestamps := ["a", "b"], values := [1, 2] }
    demand_data := { timestamps := ["a", "b", "c"], values := [1, 2, 3] }
    daily_decision_hour := 12
    n_lookahead_hours := 36
    load_shift := { max_demand_advance := 2
                    max_demand_delay := 3
                    max_hourly_purchase := 20
                    max_rate := 10
                    enforce_charge_direction := false
                    solver := "auto" } }

/-- A scheduler engine failing on every window. -/
def failingEngine : SolveInput → Except SolverError EngineResult :=
  fun _ => Except.error SolverError.infeasible

/-- The 72-slot rolling-horizon scenario of the spec: three days of hourly
data over a repeating day/night price pattern, decisions at hour 12,
36-hour lookahead. -/
def mh72 : MovingHorizonInput :=
  { start_hour := 0
    price := (List.range 72).map (fun i => if i % 24 < 12 then 50 else 30)
    demand := (List.range 72).map (fun i => if 18 ≤ i % 24 then 8 else 5)
    daily_decision_hour := 12
    n_lookahead_hours := 36
    max_demand_advance := 2
    max_demand_delay := 3
    max_hourly_purchase := 20
    max_rate := 10
    enforce_charge_direction := false }

/-- The same scheduler input with both series truncated to their first `P`
slots. -/
def truncateInput (mh : MovingHorizonInput) (P : ℕ) : MovingHorizonInput :=
  { mh with price := mh.price.take P, demand := mh.demand.take P }

/-- Rolling-horizon input for the causality analysis: 30 hourly slots
starting at the decision hour, all prices 1, a single unit of demand at
slot 23, one hour of delay flexibility, 25-hour lookahead. -/
def c3full : MovingHorizonInput :=
  { start_hour := 0
    price := List.replicate 30 1
    demand := List.replicate 23 0 ++ 1 :: List.replicate 6 0
    daily_decision_hour := 0
    n_lookahead_hours := 25
    max_demand_advance := 0
    max_demand_delay := 1
    max_hourly_purchase := 20
    max_rate := 10
    enforce_charge_direction := false }

/-- `c3full` truncated at its second committed decision point (slot 24). -/
def c3cut : MovingHorizonInput := truncateInput c3full 24

/-- Optimal point of the full run's first window: the demand unit is delayed
from slot 23 to slot 24 and spilled past the horizon edge. -/
def c3spillCandidate : Candidate :=
  { T := fun i j => if i = 23 ∧ j = 24 then 1 else 0
    remove_spillover := fun i => if i = 24 then 1 else 0
    add_spillover := fun _ => 0 }

/-- The engine of the full `c3full` run: it answers the first window with
the delayed-and-spilled point and every other window with the do-nothing
point. -/
def c3fullEngine : SolveInput → Except SolverError EngineResult :=
  fun w =>
    if w = windowInput c3full 0 then
      Except.ok (resultOf (windowInput c3full 0) c3spillCandidate)
    else Except.ok (resultOf w zeroCandidate)

/-- The engine of the truncated `c3cut` run: the do-nothing point
everywhere. -/
def c3cutEngine : SolveInput → Except SolverError EngineResult :=
  fun w => Except.ok (resultOf w zeroCandidate)

/-- `sumTo` agrees with the `Finset.range` sum. -/
theorem sumTo_eq_finset (n : ℕ) (f : ℕ → ℚ) :
    sumTo n f = ∑ i in Finset.range n, f i := by
  induction n with
  | zero => rfl
  | succ m ih => rw [sumTo, Finset.sum_range_succ, ih]

/-- Decidable equality of `Except` results, for evaluating concrete runs. -/
instance instDecidableEqExcept {e a : Type} [DecidableEq e] [DecidableEq a] :
    DecidableEq (Except e a) := fun x y =>
  match x, y with
  | .ok u, .ok v =>
    match decEq u v with
    | isTrue h => isTrue (by rw [h])
    | isFalse h => isFalse (by intro hc; cases hc; exact h rfl)
  | .error u, .error v =>
    match decEq u v with
    | isTrue h => isTrue (by rw [h])
    | isFalse h => isFalse (by intro hc; cases hc; exact h rfl)
  | .ok _, .error _ => isFalse (by intro hc; cases hc)
  | .error _, .ok _ => isFalse (by intro hc; cases hc)

/-- Summing positional `getD` over the length of a list gives its sum. -/
theorem sum_range_getD (l : List ℚ) :
    sumTo l.length (fun i => l.getD i 0) = l.sum := by
  rw [sumTo_eq_finset]
  induction l with
  | nil => simp
  | cons a t ih =>
    rw [List.length_cons, Finset.sum_range_succ']
    simp only [List.getD_cons_succ, List.getD_cons_zero, ih, List.sum_cons]
    exact add_comm _ _

/-- Conservation at the model level: transfers cancel in the total, leaving
the original total demand corrected by the two spillover totals. -/
theorem sum_optimalDemand (inp : SolveInput) (c : Candidate) :
    sumTo (horizon inp) (optimalDemand inp c)
      = sumTo (horizon inp) (fun i => inp.demand.getD i 0)
        + sumTo (horizon inp) c.add_spillover
        - sumTo (horizon inp) c.remove_spillover := by
  have h : ∑ i in Finset.range (horizon inp), inflow inp c i
      = ∑ i in Finset.range (horizon inp), outflow inp c i := by
    simp only [inflow, outflow, sumTo_eq_finset]
    exact Finset.sum_comm
  simp only [sumTo_eq_finset, optimalDemand, Finset.sum_add_distrib,
    Finset.sum_sub_distrib, h]
  ring

/-- Without an active bounded control horizon, feasibility forces both
spillover vectors to vanish on the horizon. -/
theorem spillover_zero_of_inactive (inp : SolveInput) (c : Candidate)
    (hf : Feasible inp c) (h : spillActive inp = false) :
    ∀ i < horizon inp,
      c.remove_spillover i = 0 ∧ c.add_spillover i = 0 := by
  intro i hi
  constructor
  · by_contra hne
    have hb := (hf.2.2.2.2.1 i hi hne).1
    rw [h] at hb
    exact Bool.false_ne_true hb
  · by_contra hne
    have hb := (hf.2.2.2.2.2.1 i hi hne).1
    rw [h] at hb
    exact Bool.false_ne_true hb

/-- With non-negative prices, every feasible point has non-negative cost. -/
theorem cost_nonneg (inp : SolveInput) (c : Candidate)
    (hp : ∀ i < horizon inp, 0 ≤ inp.price.getD i 0)
    (hf : Feasible inp c) : 0 ≤ cost inp c := by
  rw [cost, sumTo_eq_finset]
  exact Finset.sum_nonneg fun i hi =>
    mul_nonneg (hp i (Finset.mem_range.mp hi))
      (hf.2.2.1 i (Finset.mem_range.mp hi)).1

/-- With a constant price and no active spillover, every feasible point has
the same cost: price times total demand. -/
theorem cost_const_price (inp : SolveInput) (c : Candidate) (q : ℚ)
    (hp : ∀ i < horizon inp, inp.price.getD i 0 = q)
    (hf : Feasible inp c) (h : spillActive inp = false) :
    cost inp c = q * inp.demand.sum := by
  have h0 : cost inp c = q * sumTo (horizon inp) (optimalDemand inp c) := by
    simp only [cost, sumTo_eq_finset, Finset.mul_sum]
    exact Finset.sum_congr rfl fun i hi => by
      rw [hp i (Finset.mem_range.mp hi)]
  have hz := spillover_zero_of_inactive inp c hf h
  have hrem : sumTo (horizon inp) c.remove_spillover = 0 := by
    rw [sumTo_eq_finset]
    exact Finset.sum_eq_zero fun i hi => (hz i (Finset.mem_range.mp hi)).1
  have hadd : sumTo (horizon inp) c.add_spillover = 0 := by
    rw [sumTo_eq_finset]
    exact Finset.sum_eq_zero fun i hi => (hz i (Finset.mem_range.mp hi)).2
  have hsum : sumTo (horizon inp) (fun i => inp.demand.getD i 0)
      = inp.demand.sum := sum_range_getD inp.demand
  rw [h0, sum_optimalDemand, hrem, hadd, hsum]
  ring

/-- The mapped `List.range` sum agrees with `sumTo`. -/
theorem sum_map_range (n : ℕ) (f : ℕ → ℚ) :
    ((List.range n).map f).sum = sumTo n f := by
  rw [sumTo_eq_finset]
  induction n with
  | zero => rfl
  | succ m ih =>
    rw [List.range_succ, List.map_append, List.sum_append,
      Finset.sum_range_succ, ← ih]
    simp

/-- The total demand in `sumTo` form. -/
theorem sumTo_demand (inp : SolveInput) :
    sumTo (horizon inp) (fun i => inp.demand.getD i 0) = inp.demand.sum :=
  sum_range_getD inp.demand

/-- A `sumTo` of a function vanishing below the bound is zero. -/
theorem sumTo_eq_zero (n : ℕ) (f : ℕ → ℚ) (h : ∀ i < n, f i = 0) :
    sumTo n f = 0 := by
  induction n with
  | zero => rfl
  | succ m ih =>
    rw [sumTo, h m (by omega), ih (fun i hi => h i (by omega)), add_zero]

/-- Claim C2: conservation in a single-horizon solve.  Without an active
bounded control horizon (`n_control_hours` unset or at least the series
length) the returned optimal total equals the original total demand; with
one, the spillover-corrected totals agree.  Stated for every returned
optimal result. -/
theorem c2_conservation (inp : SolveInput) (r : EngineResult)
    (hr : ResultOptimal inp r) :
    (spillActive inp = false → r.optimal_demand.sum = inp.demand.sum) ∧
    (∀ rs sa, r.remove_spillover = some rs → r.add_spillover = some sa →
      r.optimal_demand.sum + rs.sum = inp.demand.sum + sa.sum) := by
  obtain ⟨c, ⟨hf, _⟩, rfl⟩ := hr
  have hod : (resultOf inp c).optimal_demand.sum
      = sumTo (horizon inp) (optimalDemand inp c) := by
    dsimp only [resultOf]
    exact sum_map_range (horizon inp) (optimalDemand inp c)
  constructor
  · intro hs
    have hz := spillover_zero_of_inactive inp c hf hs
    have hrem : sumTo (horizon inp) c.remove_spillover = 0 :=
      sumTo_eq_zero _ _ fun i hi => (hz i hi).1
    have hadd : sumTo (horizon inp) c.add_spillover = 0 :=
      sumTo_eq_zero _ _ fun i hi => (hz i hi).2
    rw [hod, sum_optimalDemand, hrem, hadd, sumTo_demand]
    ring
  · intro rs sa hrs hsa
    cases hs : spillActive inp with
    | false => simp [resultOf, hs] at hrs
    | true =>
      simp [resultOf, hs] at hrs hsa
      rw [hod, sum_optimalDemand, sumTo_demand, ← hrs, ← hsa,
        sum_map_range, sum_map_range]
      ring

set_option maxRecDepth 40000 in
unseal Rat.add Rat.mul Rat.sub Rat.inv in
/-- Claim C2 witness: the concrete one-slot input `c1okInput` with the
do-nothing optimal point conserves the demand total. -/
theorem c2_conservation_witness :
    ResultOptimal c1okInput (resultOf c1okInput zeroCandidate) ∧
    (resultOf c1okInput zeroCandidate).optimal_demand.sum
      = c1okInput.demand.sum := by
  have hopt : IsOptimal c1okInput zeroCandidate := by
    refine ⟨by decide, fun c2 h2 => le_of_eq ?_⟩
    rw [cost_const_price c1okInput zeroCandidate 2 (by decide) (by decide) rfl,
      cost_const_price c1okInput c2 2 (by decide) h2 rfl]
  exact ⟨⟨zeroCandidate, hopt, rfl⟩,
    (c2_conservation c1okInput _ ⟨zeroCandidate, hopt, rfl⟩).1 rfl⟩

/-- Claim C4: a request violating the parameter bounds — mismatched series
lengths, an empty series, a negative advance or delay, or a non-positive
purchase cap or rate — is rejected by validation with the invalid-parameter
error, identically for every engine, so no solve is attempted and no
optimization result is produced. -/
theorem c4_invalid_request_rejected (r : OptimizationRequest)
    (hbad : r.price.length ≠ r.demand.length ∨ r.price = [] ∨ r.demand = [] ∨
      r.max_demand_advance < 0 ∨ r.max_demand_delay < 0 ∨
      r.max_hourly_purchase ≤ 0 ∨ r.max_rate ≤ 0) :
    ∀ S, optimize_demand S r
      = Except.error (ApiError.invalidParameter "validation") := by
  intro S
  have hnv : ¬ (validOptimizationRequest r = true) := by
    simp only [validOptimizationRequest, Bool.and_eq_true, decide_eq_true_eq]
    intro hall
    obtain ⟨⟨⟨⟨⟨⟨⟨hp, hd⟩, ha⟩, hdl⟩, hcap⟩, hrate⟩, _hctrl⟩, hlen⟩ := hall
    rcases hbad with h | h | h | h | h | h | h
    · exact h hlen.symm
    · rw [h] at hp
      exact absurd hp (by simp)
    · rw [h] at hd
      exact absurd hd (by simp)
    · exact absurd ha (not_le.mpr h)
    · exact absurd hdl (not_le.mpr h)
    · exact absurd hcap (not_lt.mpr h)
    · exact absurd hrate (not_lt.mpr h)
  unfold optimize_demand
  rw [if_neg hnv]

/-- Claim C4 witness: the mismatched-length request is rejected whatever the
engine would have answered. -/
theorem c4_invalid_request_witness :
    optimize_demand stubEngine c4badRequest
      = Except.error (ApiError.invalidParameter "validation") :=
  c4_invalid_request_rejected c4badRequest (Or.inl (by decide)) stubEngine

/-- Claim C9: when the original cost is not strictly positive the
percentage-savings field is returned as zero in both endpoints; the division
by the original cost is never performed on a non-positive value. -/
theorem c9_percent_guard
    (S : SolveInput → EngineResult) (r : OptimizationRequest)
    (resp : OptimizationResponse)
    (S2 : SolveInput → Except SolverError EngineResult) (h0 : ℕ)
    (r2 : MovingHorizonRequest) (resp2 : MovingHorizonResponse)
    (h1 : optimize_demand S r = Except.ok resp)
    (h2 : optimize_moving_horizon S2 h0 r2 = Except.ok resp2) :
    (resp.original_cost ≤ 0 → resp.cost_savings_percent = 0) ∧
    (resp2.original_cost ≤ 0 → resp2.cost_savings_percent = 0) := by
  constructor
  · simp only [optimize_demand] at h1
    split at h1
    · simp only [Except.ok.injEq] at h1
      subst h1
      intro hle
      dsimp only at hle ⊢
      rw [if_neg (not_lt.mpr hle)]
    · cases h1
  · simp only [optimize_moving_horizon] at h2
    split at h2
    · split at h2
      · cases h2
      · simp only [Except.ok.injEq] at h2
        subst h2
        intro hle
        dsimp only at hle ⊢
        rw [if_neg (not_lt.mpr hle)]
    · cases h2

unseal Rat.add Rat.mul Rat.sub Rat.inv in
/-- Claim C9 witness: concrete zero-price runs of both endpoints return a
zero percentage. -/
theorem c9_percent_guard_witness :
    optimize_demand stubEngine zeroPriceRequest
      = Except.ok zeroPriceResponse ∧
    optimize_moving_horizon identityEngine 0 mhSmallRequest
      = Except.ok mhSmallResponse ∧
    zeroPriceResponse.cost_savings_percent = 0 ∧
    mhSmallResponse.cost_savings_percent = 0 := by
  have h1 : optimize_demand stubEngine zeroPriceRequest
      = Except.ok zeroPriceResponse := by decide
  have h2 : optimize_moving_horizon identityEngine 0 mhSmallRequest
      = Except.ok mhSmallResponse := by decide
  have h := c9_percent_guard stubEngine zeroPriceRequest zeroPriceResponse
    identityEngine 0 mhSmallRequest mhSmallResponse h1 h2
  exact ⟨h1, h2, h.1 (le_of_eq (by rfl)), h.2 (le_of_eq (by rfl))⟩

/-- Claim C7: in both endpoints the returned cost fields are computed at the
API boundary from the request series and the engine's returned demand
quantities — the original cost as the price/demand product sum, the
optimized cost as the price against the returned demand, and the savings as
their difference; the engine result itself carries no cost fields. -/
theorem c7_costs_computed_at_boundary
    (S : SolveInput → EngineResult) (r : OptimizationRequest)
    (resp : OptimizationResponse)
    (S2 : SolveInput → Except SolverError EngineResult) (h0 : ℕ)
    (r2 : MovingHorizonRequest) (resp2 : MovingHorizonResponse)
    (h1 : optimize_demand S r = Except.ok resp)
    (h2 : optimize_moving_horizon S2 h0 r2 = Except.ok resp2) :
    (resp.original_cost = dotList r.price r.demand ∧
     resp.optimized_cost = dotList r.price (S (toSolveInput r)).optimal_demand ∧
     resp.cost_savings = resp.original_cost - resp.optimized_cost) ∧
    (resp2.original_cost
        = dotList r2.price_data.values r2.demand_data.values ∧
     resp2.optimized_cost
        = dotList r2.price_data.values resp2.optimal_demand ∧
     resp2.cost_savings = resp2.original_cost - resp2.optimized_cost) := by
  constructor
  · simp only [optimize_demand] at h1
    split at h1
    · simp only [Except.ok.injEq] at h1
      subst h1
      exact ⟨rfl, rfl, rfl⟩
    · cases h1
  · simp only [optimize_moving_horizon] at h2
    split at h2
    · split at h2
      · cases h2
      · simp only [Except.ok.injEq] at h2
        subst h2
        exact ⟨rfl, rfl, rfl⟩
    · cases h2

unseal Rat.add Rat.mul Rat.sub Rat.inv in
/-- Claim C7 witness: the boundary formulas hold on concrete runs of both
endpoints. -/
theorem c7_costs_witness :
    optimize_demand stubEngine zeroPriceRequest
      = Except.ok zeroPriceResponse ∧
    zeroPriceResponse.original_cost
      = dotList zeroPriceRequest.price zeroPriceRequest.demand ∧
    mhSmallResponse.optimized_cost
      = dotList mhSmallRequest.price_data.values
          mhSmallResponse.optimal_demand := by
  have h1 : optimize_demand stubEngine zeroPriceRequest
      = Except.ok zeroPriceResponse := by decide
  have h2 : optimize_moving_horizon identityEngine 0 mhSmallRequest
      = Except.ok mhSmallResponse := by decide
  have h := c7_costs_computed_at_boundary stubEngine zeroPriceRequest
    zeroPriceResponse identityEngine 0 mhSmallRequest mhSmallResponse h1 h2
  exact ⟨h1, h.1.1, h.2.2.1⟩

/-- Claim C6: in a successful single-horizon response the spillover vectors
are present exactly when the request supplied a bounded control horizon
(`n_control_hours` set and smaller than the series length); with it unset
they are both null. -/
theorem c6_spillover_presence
    (S : SolveInput → EngineResult) (r : OptimizationRequest)
    (resp : OptimizationResponse) (c : Candidate)
    (hS : S (toSolveInput r) = resultOf (toSolveInput r) c)
    (h1 : optimize_demand S r = Except.ok resp) :
    (resp.remove_spillover ≠ none ↔ spillBounded r = true) ∧
    (resp.add_spillover ≠ none ↔ spillBounded r = true) := by
  have hiff : spillActive (toSolveInput r) = spillBounded r := by
    cases hc : r.n_control_hours with
    | none => simp [spillActive, spillBounded, toSolveInput, hc]
    | some k => simp [spillActive, spillBounded, toSolveInput, hc, horizon]
  simp only [optimize_demand] at h1
  split at h1
  · simp only [Except.ok.injEq] at h1
    subst h1
    dsimp only
    rw [hS]
    simp only [resultOf, hiff]
    cases hsb : spillBounded r <;> simp
  · cases h1

set_option maxRecDepth 40000 in
unseal Rat.add Rat.mul Rat.sub Rat.inv in
/-- Claim C6 witness: the concrete request with `n_control_hours = 1` out of
two slots gets both spillover vectors populated. -/
theorem c6_spillover_witness :
    optimize_demand c6Engine c6Request = Except.ok c6Response ∧
    c6Response.remove_spillover ≠ none ∧
    c6Response.add_spillover ≠ none ∧
    spillBounded c6Request = true := by
  have h1 : optimize_demand c6Engine c6Request = Except.ok c6Response := by
    decide
  have h := c6_spillover_presence c6Engine c6Request c6Response zeroCandidate
    rfl h1
  exact ⟨h1, h.1.mpr (by decide), h.2.mpr (by decide), by decide⟩

/-- Claim C10: moving-horizon schema validation is exactly the conjunction
of per-series internal consistency and scalar bounds — it imposes no
relation between the two series — and a concrete pair of series with
different lengths and timestamps passes it. -/
theorem c10_validation_no_cross_check :
    (∀ r : MovingHorizonRequest,
      validMovingHorizonRequest r = true ↔
        (validTimeSeriesData r.price_data = true ∧
         validTimeSeriesData r.demand_data = true ∧
         0 ≤ r.daily_decision_hour ∧ r.daily_decision_hour ≤ 23 ∧
         24 ≤ r.n_lookahead_hours ∧
         validLoadShiftConfig r.load_shift = true)) ∧
    validMovingHorizonRequest c10mismatched = true ∧
    c10mismatched.price_data.values.length
      ≠ c10mismatched.demand_data.values.length ∧
    c10mismatched.price_data.timestamps
      ≠ c10mismatched.demand_data.timestamps := by
  refine ⟨?_, by decide, by decide, by decide⟩
  intro r
  simp [validMovingHorizonRequest, Bool.and_eq_true, and_assoc]

/-- On `c1badInput` the hourly cap and the rate bound force every feasible
point to the same schedule, of cost 1020. -/
theorem c1bad_cost_forced (c2 : Candidate) (hf : Feasible c1badInput c2) :
    cost c1badInput c2 = 1020 := by
  obtain ⟨hw, hr, hb, _hs, hrem, hadd, _hd⟩ := hf
  have h00 : c2.T 0 0 = 0 := by
    by_contra hne
    exact (hw 0 (by decide) 0 (by decide) hne).1 rfl
  have h11 : c2.T 1 1 = 0 := by
    by_contra hne
    exact (hw 1 (by decide) 1 (by decide) hne).1 rfl
  have h10 : c2.T 1 0 = 0 := by
    by_contra hne
    have h2 := (hw 1 (by decide) 0 (by decide) hne).2.1
    exact absurd h2 (by decide)
  have hrem0 : c2.remove_spillover 0 = 0 := by
    by_contra hne
    have h2 := (hrem 0 (by decide) hne).1
    exact absurd h2 (by decide)
  have hrem1 : c2.remove_spillover 1 = 0 := by
    by_contra hne
    have h2 := (hrem 1 (by decide) hne).1
    exact absurd h2 (by decide)
  have hadd0 : c2.add_spillover 0 = 0 := by
    by_contra hne
    have h2 := (hadd 0 (by decide) hne).1
    exact absurd h2 (by decide)
  have hadd1 : c2.add_spillover 1 = 0 := by
    by_contra hne
    have h2 := (hadd 1 (by decide) hne).1
    exact absurd h2 (by decide)
  have hin0 : inflow c1badInput c2 0 = 0 + c2.T 0 0 + c2.T 1 0 := rfl
  have hout0 : outflow c1badInput c2 0 = 0 + c2.T 0 0 + c2.T 0 1 := rfl
  have hin1 : inflow c1badInput c2 1 = 0 + c2.T 0 1 + c2.T 1 1 := rfl
  have hout1 : outflow c1badInput c2 1 = 0 + c2.T 1 0 + c2.T 1 1 := rfl
  have hg0 : c1badInput.demand.getD 0 0 = 30 := rfl
  have hg1 : c1badInput.demand.getD 1 0 = 0 := rfl
  have hod0 : optimalDemand c1badInput c2 0 = 30 - c2.T 0 1 := by
    unfold optimalDemand
    rw [hin0, hout0, hrem0, hadd0, hg0, h00, h10]
    ring
  have hod1 : optimalDemand c1badInput c2 1 = c2.T 0 1 := by
    unfold optimalDemand
    rw [hin1, hout1, hrem1, hadd1, hg1, h11, h10]
    ring
  have hub : c2.T 0 1 ≤ 10 := (hr 0 (by decide) 1 (by decide)).2
  have hlb : (10:ℚ) ≤ c2.T 0 1 := by
    have h2 := (hb 0 (by decide)).2
    have hcap : c1badInput.max_hourly_purchase = 20 := rfl
    rw [hod0, hcap] at h2
    linarith
  have ht : c2.T 0 1 = 10 := le_antisymm hub hlb
  have hcost : cost c1badInput c2
      = 0 + 1 * optimalDemand c1badInput c2 0
        + 100 * optimalDemand c1badInput c2 1 := rfl
  rw [hcost, hod0, hod1, ht]
  norm_num

/-- Claim C1 (amended): for every valid input whose original demand profile
is itself feasible (each `demand[i]` within `[0, max_hourly_purchase]`), the
returned optimal cost never exceeds the original cost
`sum price[i]*demand[i]`. -/
theorem c1_optimal_cost_le_original
    (inp : SolveInput) (c : Candidate)
    (hv : ValidSolveInput inp)
    (hd : ∀ i < horizon inp,
      0 ≤ inp.demand.getD i 0 ∧
        inp.demand.getD i 0 ≤ inp.max_hourly_purchase)
    (hopt : IsOptimal inp c) :
    cost inp c
      ≤ sumTo (horizon inp)
          (fun i => inp.price.getD i 0 * inp.demand.getD i 0) := by
  have hz : ∀ i, optimalDemand inp zeroCandidate i = inp.demand.getD i 0 := by
    intro i
    have hin : inflow inp zeroCandidate i = 0 :=
      sumTo_eq_zero _ _ (fun j _ => rfl)
    have hout : outflow inp zeroCandidate i = 0 :=
      sumTo_eq_zero _ _ (fun j _ => rfl)
    unfold optimalDemand
    rw [hin, hout]
    show inp.demand.getD i 0 + 0 - 0 + 0 - 0 = _
    ring
  have hfz : Feasible inp zeroCandidate := by
    refine ⟨?_, ?_, ?_, ?_, ?_, ?_, ?_⟩
    · intro i _ j _ hne
      exact absurd rfl hne
    · intro i _ j _
      exact ⟨le_refl 0, le_of_lt hv.2.2.2.1⟩
    · intro i hi
      rw [hz]
      exact hd i hi
    · intro i _
      exact ⟨le_refl 0, le_refl 0⟩
    · intro i _ hne
      exact absurd rfl hne
    · intro i _ hne
      exact absurd rfl hne
    · intro _ i _
      left
      have hin : inflow inp zeroCandidate i = 0 :=
        sumTo_eq_zero _ _ (fun j _ => rfl)
      rw [hin]
      show (0:ℚ) + 0 = 0
      norm_num
  have hle := hopt.2 zeroCandidate hfz
  have hcz : cost inp zeroCandidate
      = sumTo (horizon inp)
          (fun i => inp.price.getD i 0 * inp.demand.getD i 0) := by
    unfold cost
    rw [sumTo_eq_finset, sumTo_eq_finset]
    exact Finset.sum_congr rfl fun i _ => by rw [hz]
  rw [← hcz]
  exact hle

set_option maxRecDepth 40000 in
unseal Rat.add Rat.mul Rat.sub Rat.inv in
/-- Claim C1 witness: on the concrete one-slot input the optimal cost equals
(hence does not exceed) the original cost. -/
theorem c1_optimal_cost_witness :
    cost c1okInput zeroCandidate
      ≤ sumTo (horizon c1okInput)
          (fun i => c1okInput.price.getD i 0 * c1okInput.demand.getD i 0) := by
  have hopt : IsOptimal c1okInput zeroCandidate := by
    refine ⟨by decide, fun c2 h2 => le_of_eq ?_⟩
    rw [cost_const_price c1okInput zeroCandidate 2 (by decide) (by decide) rfl,
      cost_const_price c1okInput c2 2 (by decide) h2 rfl]
  exact c1_optimal_cost_le_original c1okInput zeroCandidate (by decide)
    (by decide) hopt

set_option maxRecDepth 40000 in
unseal Rat.add Rat.mul Rat.sub Rat.inv in
/-- Claim C1 counterexample: `c1badInput` is a valid input (equal-length
series, bounds respected), yet its unique optimal point costs 1020 while the
original cost is 30 — the optimizer must exceed the do-nothing cost because
the original demand violates the hourly cap. -/
theorem c1_cost_increase_counterexample :
    ValidSolveInput c1badInput ∧
    IsOptimal c1badInput c1badCandidate ∧
    sumTo (horizon c1badInput)
        (fun i => c1badInput.price.getD i 0 * c1badInput.demand.getD i 0)
      < cost c1badInput c1badCandidate := by
  have hfeas : Feasible c1badInput c1badCandidate := by decide
  refine ⟨by decide, ⟨hfeas, fun c2 h2 => ?_⟩, ?_⟩
  · rw [c1bad_cost_forced c1badCandidate hfeas, c1bad_cost_forced c2 h2]
  · rw [c1bad_cost_forced c1badCandidate hfeas]
    decide

/-- `getD` inside the taken head of a list. -/
theorem getD_take (l : List ℚ) (k i : ℕ) (h : i < k) :
    (l.take k).getD i 0 = l.getD i 0 := by
  rw [List.getD_eq_getElem?_getD, List.getD_eq_getElem?_getD,
    List.getElem?_take, if_pos h]

/-- The extracted optimal-demand series always has the window's length. -/
theorem resultOf_length (inp : SolveInput) (c : Candidate) :
    (resultOf inp c).optimal_demand.length = inp.demand.length := by
  dsimp only [resultOf]
  rw [List.length_map, List.length_range]
  rfl

/-- Each window commits exactly `min 24 (remaining)` slots, so a successful
loop output covers the remaining input. -/
theorem schedLoop_length
    (S : SolveInput → Except SolverError EngineResult) (mh : MovingHorizonInput)
    (hk : 24 ≤ mh.n_lookahead_hours)
    (hS : ∀ w res, S w = Except.ok res →
      res.optimal_demand.length = w.demand.length) :
    ∀ fuel p out, schedLoop S mh fuel p = Except.ok out →
      mh.demand.length ≤ p + fuel → out.length = mh.demand.length - p := by
  intro fuel
  induction fuel with
  | zero =>
    intro p out h hle
    simp only [schedLoop] at h
    injection h with h2
    rw [← h2]
    simp only [List.length_nil]
    omega
  | succ f ih =>
    intro p out h hle
    simp only [schedLoop] at h
    by_cases hpN : p < mh.demand.length
    · rw [if_pos hpN] at h
      split at h
      next e heq => cases h
      next res heq =>
        split at h
        next f2 heq2 => cases h
        next rest heq2 =>
          injection h with h2
          rw [← h2, List.length_append, List.length_take]
          have hrest := ih (p + 24) rest heq2 (by omega)
          have hreslen := hS _ _ heq
          have hwd : (windowInput mh p).demand.length
              = min (windowLen mh p) (mh.demand.length - p) := by
            show ((mh.demand.drop p).take (windowLen mh p)).length = _
            rw [List.length_take, List.length_drop]
          have hwl : windowLen mh p
              = min mh.n_lookahead_hours (mh.demand.length - p) := rfl
          have hcl : commitLen mh p = min 24 (windowLen mh p) := rfl
          omega
    · rw [if_neg hpN] at h
      injection h with h2
      rw [← h2]
      simp only [List.length_nil]
      omega

/-- Claim C8: a successful rolling-horizon run commits exactly one output
slot per input slot (for any engine respecting the result-length contract
and any lookahead of at least 24 hours). -/
theorem c8_output_covers_input
    (S : SolveInput → Except SolverError EngineResult)
    (mh : MovingHorizonInput) (out : List ℚ)
    (hk : 24 ≤ mh.n_lookahead_hours)
    (hS : ∀ w res, S w = Except.ok res →
      res.optimal_demand.length = w.demand.length)
    (h : moving_horizon S mh = Except.ok out) :
    out.length = mh.demand.length := by
  unfold moving_horizon at h
  cases hrec : schedLoop S mh mh.demand.length (firstDecision mh) with
  | error f =>
    rw [hrec] at h
    cases h
  | ok rest =>
    rw [hrec] at h
    simp only [Except.map] at h
    injection h with h2
    rw [← h2, List.length_append, List.length_take]
    have hlen := schedLoop_length S mh hk hS mh.demand.length
      (firstDecision mh) rest hrec (by omega)
    omega

set_option maxRecDepth 100000 in
unseal Rat.add Rat.mul Rat.sub Rat.inv in
/-- Claim C8 witness: the 72-slot scenario (decision hour 12, 36-hour
lookahead) commits exactly 72 slots. -/
theorem c8_output_covers_witness :
    moving_horizon identityEngine mh72 = Except.ok mh72.demand ∧
    mh72.demand.length = 72 := by
  have hrun : moving_horizon identityEngine mh72 = Except.ok mh72.demand := by
    decide
  have hS : ∀ w res, identityEngine w = Except.ok res →
      res.optimal_demand.length = w.demand.length := by
    intro w res h
    injection h with h2
    subst h2
    rfl
  exact ⟨hrun,
    (c8_output_covers_input identityEngine mh72 mh72.demand (by decide) hS
      hrun).trans (by decide)⟩

/-- A failing window aborts the whole loop with the earliest failing
window's start. -/
theorem schedLoop_first_error
    (S : SolveInput → Except SolverError EngineResult) (mh : MovingHorizonInput)
    (q : ℕ) (e : SolverError)
    (hfail : S (windowInput mh q) = Except.error e)
    (hqN : q < mh.demand.length) :
    ∀ fuel p, p ≤ q → (q - p) % 24 = 0 →
      mh.demand.length ≤ p + fuel →
      (∀ p2, p ≤ p2 → p2 < q → (p2 - p) % 24 = 0 →
        ∃ r, S (windowInput mh p2) = Except.ok r) →
      schedLoop S mh fuel p
        = Except.error { window_start := q, error := e } := by
  intro fuel
  induction fuel with
  | zero =>
    intro p hpq hmod hle hok
    exfalso
    omega
  | succ f ih =>
    intro p hpq hmod hle hok
    rcases Nat.lt_or_ge p q with hlt | hge
    · have hp24 : p + 24 ≤ q := by omega
      obtain ⟨r, hr⟩ := hok p (le_refl p) hlt (by omega)
      have hrec := ih (p + 24) (by omega) (by omega) (by omega)
        (fun p2 h1 h2 h3 => hok p2 (by omega) h2 (by omega))
      simp only [schedLoop]
      rw [if_pos (show p < mh.demand.length by omega), hr, hrec]
    · have hpq2 : p = q := le_antisymm hpq hge
      subst hpq2
      simp only [schedLoop]
      rw [if_pos hqN, hfail]

/-- Claim C5: if the window at decision point `q` fails while every earlier
window succeeds, the whole rolling-horizon run fails with the error naming
`q`; in particular no committed series is returned. -/
theorem c5_first_failure_aborts_run
    (S : SolveInput → Except SolverError EngineResult)
    (mh : MovingHorizonInput) (q : ℕ) (e : SolverError)
    (hq1 : firstDecision mh ≤ q)
    (hq2 : (q - firstDecision mh) % 24 = 0)
    (hqN : q < mh.demand.length)
    (hfail : S (windowInput mh q) = Except.error e)
    (hok : ∀ p, firstDecision mh ≤ p → p < q →
      (p - firstDecision mh) % 24 = 0 →
      ∃ r, S (windowInput mh p) = Except.ok r) :
    moving_horizon S mh
      = Except.error { window_start := q, error := e } := by
  unfold moving_horizon
  rw [schedLoop_first_error S mh q e hfail hqN mh.demand.length
    (firstDecision mh) hq1 hq2 (by omega) hok]
  rfl

/-- Claim C5 witness: an engine failing on the first window aborts the
concrete run with the error naming window start 0. -/
theorem c5_first_failure_witness :
    moving_horizon failingEngine (toMovingHorizonInput 0 mhSmallRequest)
      = Except.error { window_start := 0, error := SolverError.infeasible } := by
  refine c5_first_failure_aborts_run failingEngine
    (toMovingHorizonInput 0 mhSmallRequest) 0 SolverError.infeasible
    (by decide) (by decide) (by decide) rfl ?_
  intro p h1 h2 h3
  exfalso
  omega

/-- A successful loop reads the committed value for slot `t` from the single
window solved at `t`'s decision point `d`, provided that window's full
lookahead lies inside the data. -/
theorem schedLoop_getD_window
    (S : SolveInput → Except SolverError EngineResult) (mh : MovingHorizonInput)
    (d t : ℕ)
    (hk : 24 ≤ mh.n_lookahead_hours)
    (hS : ∀ w res, S w = Except.ok res →
      res.optimal_demand.length = w.demand.length)
    (hdN : d + mh.n_lookahead_hours ≤ mh.demand.length)
    (ht1 : d ≤ t) (ht2 : t < d + 24) :
    ∀ fuel p out, schedLoop S mh fuel p = Except.ok out →
      p ≤ d → (d - p) % 24 = 0 → mh.demand.length ≤ p + fuel →
      ∃ res, S (windowInput mh d) = Except.ok res ∧
        out.getD (t - p) 0 = res.optimal_demand.getD (t - d) 0 := by
  intro fuel
  induction fuel with
  | zero =>
    intro p out h hpd hmod hle
    exfalso
    omega
  | succ f ih =>
    intro p out h hpd hmod hle
    have hpN : p < mh.demand.length := by omega
    simp only [schedLoop] at h
    rw [if_pos hpN] at h
    split at h
    next e heq => cases h
    next res heq =>
      split at h
      next f2 heq2 => cases h
      next rest heq2 =>
        injection h with h2
        have hreslen := hS _ _ heq
        have hwd : (windowInput mh p).demand.length
            = min (windowLen mh p) (mh.demand.length - p) := by
          show ((mh.demand.drop p).take (windowLen mh p)).length = _
          rw [List.length_take, List.length_drop]
        have hwl : windowLen mh p
            = min mh.n_lookahead_hours (mh.demand.length - p) := rfl
        have hclmin : commitLen mh p = min 24 (windowLen mh p) := rfl
        have hcl : commitLen mh p = 24 := by omega
        have htk : (res.optimal_demand.take (commitLen mh p)).length = 24 := by
          rw [List.length_take]
          omega
        rcases Nat.lt_or_ge p d with hlt | hge
        · have hp24 : p + 24 ≤ d := by omega
          obtain ⟨res2, hres2, hgd⟩ := ih (p + 24) rest heq2 (by omega)
            (by omega) (by omega)
          refine ⟨res2, hres2, ?_⟩
          rw [← h2, List.getD_append_right
            (res.optimal_demand.take (commitLen mh p)) rest 0 (t - p)
            (by omega), htk]
          rw [show t - p - 24 = t - (p + 24) by omega]
          exact hgd
        · have hpd2 : p = d := le_antisymm hpd hge
          subst hpd2
          refine ⟨res, heq, ?_⟩
          rw [← h2, List.getD_append
            (res.optimal_demand.take (commitLen mh p)) rest 0 (t - p)
            (by omega), getD_take res.optimal_demand (commitLen mh p) (t - p)
            (by omega)]

/-- Claim C3 (amended): causality holds within the visible lookahead:
truncating the inputs at point `P` leaves the committed value of slot `t`
unchanged for every slot whose governing window — its decision point `d`
plus the full lookahead — lies inside the retained data (`d + lookahead ≤
P`).  The counterexample theorem shows the unrestricted statement is false:
a committed decision may depend on all data visible at its decision point,
which reaches up to a full lookahead past it. -/
theorem c3_causality_within_lookahead
    (S : SolveInput → Except SolverError EngineResult)
    (mh : MovingHorizonInput) (P d t : ℕ) (out1 out2 : List ℚ)
    (hk : 24 ≤ mh.n_lookahead_hours)
    (hS : ∀ w res, S w = Except.ok res →
      res.optimal_demand.length = w.demand.length)
    (hP : P ≤ mh.demand.length)
    (hd1 : firstDecision mh ≤ d) (hd2 : (d - firstDecision mh) % 24 = 0)
    (ht1 : d ≤ t) (ht2 : t < d + 24)
    (hwin : d + mh.n_lookahead_hours ≤ P)
    (h1 : moving_horizon S mh = Except.ok out1)
    (h2 : moving_horizon S (truncateInput mh P) = Except.ok out2) :
    out1.getD t 0 = out2.getD t 0 := by
  have hwl1 : windowLen mh d = mh.n_lookahead_hours := by
    have h3 : windowLen mh d
        = min mh.n_lookahead_hours (mh.demand.length - d) := rfl
    omega
  have hlen2 : (truncateInput mh P).demand.length = P := by
    show (mh.demand.take P).length = P
    rw [List.length_take]
    omega
  have hLeq : (truncateInput mh P).n_lookahead_hours
      = mh.n_lookahead_hours := rfl
  have hwl2 : windowLen (truncateInput mh P) d = mh.n_lookahead_hours := by
    have h3 : windowLen (truncateInput mh P) d
        = min (truncateInput mh P).n_lookahead_hours
            ((truncateInput mh P).demand.length - d) := rfl
    rw [hLeq, hlen2] at h3
    omega
  have hwin_eq : windowInput (truncateInput mh P) d = windowInput mh d := by
    unfold windowInput
    rw [hwl1, hwl2]
    show SolveInput.mk (((mh.price.take P).drop d).take mh.n_lookahead_hours)
        (((mh.demand.take P).drop d).take mh.n_lookahead_hours)
        _ _ _ _ _ _
      = SolveInput.mk ((mh.price.drop d).take mh.n_lookahead_hours)
        ((mh.demand.drop d).take mh.n_lookahead_hours) _ _ _ _ _ _
    rw [List.drop_take, List.take_take, List.drop_take, List.take_take,
      show mh.n_lookahead_hours ⊓ (P - d) = mh.n_lookahead_hours by omega]
    rfl
  have hfd : firstDecision (truncateInput mh P) = firstDecision mh := rfl
  unfold moving_horizon at h1 h2
  cases hr1 : schedLoop S mh mh.demand.length (firstDecision mh) with
  | error f =>
    rw [hr1] at h1
    cases h1
  | ok rest1 =>
  rw [hr1] at h1
  simp only [Except.map] at h1
  injection h1 with h1b
  cases hr2 : schedLoop S (truncateInput mh P)
      (truncateInput mh P).demand.length
      (firstDecision (truncateInput mh P)) with
  | error f =>
    rw [hr2] at h2
    cases h2
  | ok rest2 =>
  rw [hr2] at h2
  simp only [Except.map] at h2
  injection h2 with h2b
  obtain ⟨res1, hres1, hg1⟩ := schedLoop_getD_window S mh d t hk hS
    (by omega) ht1 ht2 mh.demand.length (firstDecision mh) rest1 hr1 hd1 hd2
    (by omega)
  obtain ⟨res2, hres2, hg2⟩ := schedLoop_getD_window S (truncateInput mh P)
    d t hk hS (by rw [hlen2, hLeq]; exact hwin) ht1 ht2
    (truncateInput mh P).demand.length (firstDecision (truncateInput mh P))
    rest2 hr2 (by rw [hfd]; exact hd1) (by rw [hfd]; exact hd2) (by omega)
  rw [hwin_eq] at hres2
  have hres : res1 = res2 := by
    have h3 := hres1.symm.trans hres2
    injection h3
  have hfdd : firstDecision mh ≤ t := by omega
  have hdN : d < mh.demand.length := by omega
  have hfdlen1 : (mh.demand.take (firstDecision mh)).length
      = firstDecision mh := by
    rw [List.length_take]
    omega
  have hfdlen2 : ((truncateInput mh P).demand.take
      (firstDecision (truncateInput mh P))).length = firstDecision mh := by
    rw [hfd, List.length_take, hlen2]
    omega
  rw [← h1b, ← h2b]
  rw [List.getD_append_right (mh.demand.take (firstDecision mh)) rest1 0 t
    (by omega), hfdlen1]
  rw [List.getD_append_right ((truncateInput mh P).demand.take
    (firstDecision (truncateInput mh P))) rest2 0 t (by omega), hfdlen2]
  rw [hg1]
  rw [hfd] at hg2
  rw [hg2, hres]

set_option maxRecDepth 100000 in
unseal Rat.add Rat.mul Rat.sub Rat.inv in
/-- Claim C3 (amended) witness: truncating `c3full` at slot 25 — past the
whole first window — leaves the committed slot 23 unchanged. -/
theorem c3_causality_witness :
    moving_horizon c3fullEngine c3full = Except.ok (List.replicate 30 0) ∧
    moving_horizon c3fullEngine (truncateInput c3full 25)
      = Except.ok (List.replicate 25 0) ∧
    (List.replicate 30 (0:ℚ)).getD 23 0
      = (List.replicate 25 (0:ℚ)).getD 23 0 := by
  have hrun1 : moving_horizon c3fullEngine c3full
      = Except.ok (List.replicate 30 0) := by decide
  have hrun2 : moving_horizon c3fullEngine (truncateInput c3full 25)
      = Except.ok (List.replicate 25 0) := by decide
  have hS : ∀ w res, c3fullEngine w = Except.ok res →
      res.optimal_demand.length = w.demand.length := by
    intro w res h
    unfold c3fullEngine at h
    split at h
    next hcond =>
      injection h with h2
      subst h2
      rw [resultOf_length]
      rw [hcond]
    next hcond =>
      injection h with h2
      subst h2
      rw [resultOf_length]
  refine ⟨hrun1, hrun2, ?_⟩
  exact c3_causality_within_lookahead c3fullEngine c3full 25 0 23
    (List.replicate 30 0) (List.replicate 25 0) (by decide) hS (by decide)
    (by decide) (by decide) (by decide) (by decide) (by decide) hrun1 hrun2

set_option maxRecDepth 100000 in
unseal Rat.add Rat.mul Rat.sub Rat.inv in
/-- Claim C3 counterexample: two legal runs of the design — the full 30-slot
input and the same input truncated at the committed decision point 24 —
commit different values for slot 23, which lies before that point.  The
full run's first window (lookahead 25) sees slot 24 and delays the demand
unit out of slot 23 into it; the truncated run cannot, and keeps the unit at
slot 23.  So a committed value before a decision point changed when data
after that point was removed. -/
theorem c3_truncation_counterexample :
    c3cut = truncateInput c3full 24 ∧
    24 ∈ decisionIndices c3full ∧
    SchedRun c3full (List.replicate 30 0) ∧
    SchedRun c3cut (List.replicate 23 0 ++ [1]) ∧
    (List.replicate 30 (0:ℚ)).getD 23 0
      ≠ (List.replicate 23 (0:ℚ) ++ [1]).getD 23 0 := by
  have hfeasA : Feasible (windowInput c3full 0) c3spillCandidate := by decide
  have hcostA : cost (windowInput c3full 0) c3spillCandidate = 0 := by decide
  have hfeasB : Feasible (windowInput c3full 24) zeroCandidate := by decide
  have hcostB : cost (windowInput c3full 24) zeroCandidate = 0 := by decide
  refine ⟨rfl, by decide, ?_, ?_, by decide⟩
  · refine ⟨c3fullEngine, ?_, by decide⟩
    intro p hp
    have hdec : decisionIndices c3full = [0, 24] := by decide
    rw [hdec] at hp
    simp only [List.mem_cons, List.mem_singleton] at hp
    rcases hp with hp | hp | hp
    · subst hp
      refine ⟨resultOf (windowInput c3full 0) c3spillCandidate, ?_, ?_⟩
      · show c3fullEngine (windowInput c3full 0) = _
        unfold c3fullEngine
        rw [if_pos rfl]
      · refine ⟨c3spillCandidate, ⟨hfeasA, fun c2 h2 => ?_⟩, rfl⟩
        rw [hcostA]
        exact cost_nonneg _ c2 (by decide) h2
    · subst hp
      refine ⟨resultOf (windowInput c3full 24) zeroCandidate, ?_, ?_⟩
      · show c3fullEngine (windowInput c3full 24) = _
        unfold c3fullEngine
        rw [if_neg (by decide)]
      · refine ⟨zeroCandidate, ⟨hfeasB, fun c2 h2 => ?_⟩, rfl⟩
        rw [hcostB]
        exact cost_nonneg _ c2 (by decide) h2
    · cases hp
  · refine ⟨c3cutEngine, ?_, by decide⟩
    intro p hp
    have hdec : decisionIndices c3cut = [0] := by decide
    rw [hdec] at hp
    simp only [List.mem_singleton] at hp
    subst hp
    refine ⟨resultOf (windowInput c3cut 0) zeroCandidate, rfl, ?_⟩
    refine ⟨zeroCandidate, ⟨by decide, fun c2 h2 => le_of_eq ?_⟩, rfl⟩
    rw [cost_const_price (windowInput c3cut 0) zeroCandidate 1 (by decide)
      (by decide) (by decide),
      cost_const_price (windowInput c3cut 0) c2 1 (by decide) h2 (by decide)]

end LoadShift
